import Mathlib

/-!
Verification of the growth-simulation core of tree_gen.py.

The Python source is shallowly embedded below.  Floating-point scalars are
modelled as rationals, written exactly as the numeric literals of the source.
Positions are the translation parts of world matrices, modelled as rational
triples.  Blender mesh, bone and keyframe plumbing (the scene-graph adapter)
carries no simulation state and is dropped; where a method emits a keyframe
the embedding returns the emitted value so theorems can speak about the
event.  Stochastic draws (numpy.random.uniform, random.choices) become
explicit arguments of the functions that consume them.
-/

/-- Embeds class RandomValue: a uniform random variable given by its mean and
half-width.  Sampling itself is stochastic; the claims below only read the
mean, so get is not modelled. -/
structure RandomValue where
  mean : ℚ
  error : ℚ
deriving DecidableEq, Inhabited, Repr

/-- Embeds class GrowthFunction: a within-year curve, a year-level curve and
a noise standard deviation.  The two Blender f-curves are opaque evaluable
functions, modelled as plain functions on rationals. -/
structure GrowthFunction where
  fcurveDay : ℚ → ℚ
  fcurveYear : ℚ → ℚ
  stddev : ℚ

/-- Embeds GrowthFunction.evaluate: the mean is the day-curve difference over
the step, plus the end-of-year day-curve value when the step wrapped past
day 365, scaled by the year-curve value. -/
def GrowthFunction.evaluate (g : GrowthFunction) (year startDay endDay : ℚ) : RandomValue :=
  let yearModifier := g.fcurveYear year
  let mean := g.fcurveDay endDay - g.fcurveDay startDay
  let mean := if endDay < startDay then mean + g.fcurveDay 365 else mean
  { mean := mean * yearModifier, error := g.stddev }

/-- Embeds class StemTemplate (the RandomMesh field is adapter-side and
dropped). -/
structure StemTemplate where
  lengthRatioR : RandomValue
deriving DecidableEq, Inhabited, Repr

/-- Embeds class LeafTemplate (mesh dropped). -/
structure LeafTemplate where
  sizeR : RandomValue
deriving DecidableEq, Inhabited, Repr

/-- Embeds class FlowerTemplate (meshes dropped). -/
structure FlowerTemplate where
  sizeR : RandomValue
deriving DecidableEq, Inhabited, Repr

/-- Embeds class BudTemplate. -/
structure BudTemplate where
  index : ℕ
  dominance : ℚ
  brcAngleR : RandomValue
  divAngleR : RandomValue
  rollAngleR : RandomValue
deriving DecidableEq, Inhabited, Repr

/-- Embeds class ShootGrowthRule. -/
structure ShootGrowthRule where
  stemT : StemTemplate
  apiBudT : BudTemplate
  axilTs : List (BudTemplate × LeafTemplate)
deriving DecidableEq, Inhabited, Repr

/-- Embeds class FlowerGrowthRule. -/
structure FlowerGrowthRule where
  flowerT : FlowerTemplate
deriving DecidableEq, Inhabited, Repr

/-- Oak configuration, line 804 of the source: StemTemplate(..., RV(0.8, 0.1)). -/
def trunkT : StemTemplate := { lengthRatioR := { mean := 8/10, error := 1/10 } }

/-- Oak configuration, line 809: LeafTemplate(..., RV(0.3, 0.01)). -/
def leafT : LeafTemplate := { sizeR := { mean := 3/10, error := 1/100 } }

/-- Oak configuration, line 810: FlowerTemplate(..., RV(0.3, 0.03)). -/
def flowerT : FlowerTemplate := { sizeR := { mean := 3/10, error := 3/100 } }

/-- Oak configuration, lines 819-823: BudTemplate(index 1, dominance 2.0, ...). -/
def budTtrunk : BudTemplate :=
  { index := 1, dominance := 2,
    brcAngleR := { mean := 0, error := 15 },
    divAngleR := { mean := 0, error := 180 },
    rollAngleR := { mean := 137, error := 30 } }

/-- Oak configuration, lines 830-834: BudTemplate(index 2, dominance 1.0, ...). -/
def budTmain : BudTemplate :=
  { index := 2, dominance := 1,
    brcAngleR := { mean := 50, error := 10 },
    divAngleR := { mean := 90, error := 180 },
    rollAngleR := { mean := 137, error := 30 } }

/-- Oak configuration, lines 858-859: shoot rule with two axillary pairs. -/
def rule00 : ShootGrowthRule :=
  { stemT := trunkT, apiBudT := budTtrunk, axilTs := [(budTmain, leafT), (budTmain, leafT)] }

/-- Oak configuration, lines 860-861: shoot rule with one axillary pair. -/
def rule01 : ShootGrowthRule :=
  { stemT := trunkT, apiBudT := budTtrunk, axilTs := [(budTmain, leafT)] }

/-- Oak configuration, lines 862-863: shoot rule with no axillary pairs. -/
def rule02 : ShootGrowthRule :=
  { stemT := trunkT, apiBudT := budTtrunk, axilTs := [] }

/-- The module-level global flowerRule of line 899 of the source.  The method
BudType.flowerGrowth resolves this global at call time; in the embedding it
is declared before BudType so the method body can refer to it. -/
def flowerRule : FlowerGrowthRule := { flowerT := flowerT }

/-- Alias for the module-level global flowerRule; inside the BudType
namespace the bare name flowerRule would denote the structure field, so the
method body below uses this alias to denote the global, mirroring the
module-global resolution the Python method performs. -/
def moduleFlowerRule : FlowerGrowthRule := flowerRule

/-- Embeds class BudType: weighted shoot rules plus a per-instance flower
rule field (which, in the source, the flowerGrowth method never reads). -/
structure BudType where
  shootRules : List ShootGrowthRule
  shootWeights : List ℚ
  flowerRule : FlowerGrowthRule
deriving DecidableEq, Inhabited, Repr

/-- Embeds BudType.shootGrowth.  The source draws one rule by weighted random
choice; the draw is modelled by the explicit index k into shootRules. -/
def BudType.shootGrowth (bt : BudType) (k : ℕ) : ShootGrowthRule :=
  bt.shootRules.getD k default

/-- Embeds BudType.flowerGrowth.  The source body is literally
return flowerRule, a bare name that Python resolves to the module-level
global of line 899, not to the instance field self.flowerRule. -/
def BudType.flowerGrowth (_bt : BudType) : FlowerGrowthRule :=
  moduleFlowerRule

/-- Bud type 0 of the oak species, line 905 of the source:
budCollection.add(0, three trunk rules, weights 0.8 0.1 0.1, flowerRule). -/
def budType0 : BudType :=
  { shootRules := [rule00, rule01, rule02], shootWeights := [8/10, 1/10, 1/10],
    flowerRule := flowerRule }

/-- A position in world space: the translation part of a 4x4 world matrix,
the only part of worldMatrix the growth logic of Bud.update reads. -/
abbrev Vec3 := ℚ × ℚ × ℚ

/-- Componentwise difference of two positions, embedding the vector
subtraction of world-space translations in Bud.update. -/
def sub3 (a b : Vec3) : Vec3 := (a.1 - b.1, a.2.1 - b.2.1, a.2.2 - b.2.2)

/-- Squared Euclidean norm of a position difference. -/
def normSq (v : Vec3) : ℚ := v.1 * v.1 + v.2.1 * v.2.1 + v.2.2 * v.2.2

/-- Decides whether the Euclidean length with square dsq, divided by dom, is
strictly below 1.  The source compares distance / dominance with 1 in real
arithmetic; over the rationals the square root is not available, so the
comparison is decided on squares for positive dom (and is vacuously true for
negative dom, the ratio being nonpositive).  The source never divides by a
zero dominance: templates carry positive dominance and done() floors it at
0.0001.  The lemma distRatioLtOne_iff below proves this decision procedure
equal to the real-arithmetic comparison for every nonzero dom. -/
def distRatioLtOne (dsq dom : ℚ) : Bool :=
  (decide (0 < dom) && decide (dsq < dom * dom)) || decide (dom < 0)

/-- Embeds class Bud (the growing point).  The stem back-reference carries
no growth state and is dropped.  The apicalBud weak reference is modelled by
the pair of fields the inhibition code reads from the referenced bud at
update time: its world position and its dominance. -/
structure Bud where
  type : BudType
  pos : Vec3
  shootPotential : ℚ
  flowerPotential : ℚ
  age : ℤ
  dominance : ℚ
  apicalBud : Option (Vec3 × ℚ)
deriving DecidableEq, Repr

/-- The tagged outcome of Bud.update, the source returning either the value
of type.shootGrowth(), the value of type.flowerGrowth(), or None. -/
inductive GrowthRule where
  | shoot : ShootGrowthRule → GrowthRule
  | flower : FlowerGrowthRule → GrowthRule
deriving DecidableEq, Repr

/-- Embeds the inhibition computation of Bud.update (lines 349-353): a bud
is inhibited exactly when its age is 0, it has an apical bud, and the
distance to that apical bud divided by the dominance of that apical bud is
strictly below 1. -/
def Bud.isInhibited (b : Bud) : Bool :=
  match b.apicalBud with
  | none => false
  | some (apos, adom) => (b.age == 0) && distRatioLtOne (normSq (sub3 apos b.pos)) adom

/-- Embeds lines 346-347 of Bud.update: both potentials accumulate their
incoming signal before anything else happens. -/
def Bud.accumulate (b : Bud) (s f : ℚ) : Bud :=
  { b with shootPotential := b.shootPotential + s,
           flowerPotential := b.flowerPotential + f }

/-- Embeds Bud.update (lines 345-375).  The two mutating additions come
first; then the inhibition test; then the shoot branch; the flower test is a
separate if, not an elif, so the source reaches it even after spending an
inhibited shoot attempt.  The random rule choice inside type.shootGrowth()
is modelled by the explicit index k. -/
def Bud.update (b : Bud) (s f : ℚ) (k : ℕ) : Bud × Option GrowthRule :=
  let b1 := b.accumulate s f
  if 1 < b1.shootPotential then
    if b1.isInhibited then
      let b2 := { b1 with shootPotential := b1.shootPotential - 1 }
      if 1 < b2.flowerPotential ∧ 0 < b2.age then
        (b2, some (GrowthRule.flower (BudType.flowerGrowth b2.type)))
      else
        (b2, none)
    else
      (b1, some (GrowthRule.shoot (BudType.shootGrowth b1.type k)))
  else if 1 < b1.flowerPotential ∧ 0 < b1.age then
    (b1, some (GrowthRule.flower (BudType.flowerGrowth b1.type)))
  else
    (b1, none)

/-- Embeds Bud.done (line 378): a retiring bud keeps a near-zero dominance
floor so the inhibition division never sees zero. -/
def Bud.done (b : Bud) : Bud := { b with dominance := 1/10000 }

/-- Embeds the simulation state of class Stem (meshPart and the id are
adapter bookkeeping and carry no growth state used by the claims). -/
structure Stem where
  length : ℚ
  thick : ℚ
  secondaryGrowthGain : ℚ
deriving DecidableEq, Repr

/-- Embeds the state initialisation of the Stem constructor (lines 417-434):
length is the parent length times the sampled length ratio (the stochastic
stemT.lengthRatioR.get() draw is the explicit argument ratioSample), the
accumulator starts at zero, and thickness is 0.9 of the parent thickness.
The source stores the product unchanged. -/
def Stem.create (parentLength ratioSample parentThick : ℚ) : Stem :=
  { length := parentLength * ratioSample,
    secondaryGrowthGain := 0,
    thick := parentThick * (9/10) }

/-- Embeds Stem.update (lines 437-442): the accumulator gains
secondaryGrowth times 0.05 times the thickness; past 0.2 a single scale
keyframe carrying the accumulated gain is emitted (returned here as the
optional second component) and the accumulator resets to zero. -/
def Stem.update (s : Stem) (secondaryGrowth : ℚ) : Stem × Option ℚ :=
  let gain := s.secondaryGrowthGain + secondaryGrowth * (5/100) * s.thick
  if 2/10 < gain then
    ({ s with secondaryGrowthGain := 0 }, some gain)
  else
    ({ s with secondaryGrowthGain := gain }, none)

/-- Embeds the simulation state of class Flower (mesh parts dropped). -/
structure Flower where
  potential : ℚ
  isFruit : Bool
deriving DecidableEq, Repr

/-- Embeds lines 513-514 of the Flower initialiser: potential starts at 0
and the flower is not yet a fruit. -/
def Flower.init : Flower := { potential := 0, isFruit := false }

/-- Embeds Flower.update (lines 522-534): potential accumulates; a flower
that is not yet a fruit and whose potential passed 1 becomes a fruit
(makeFruit); the call reports a fall exactly when potential passed 2. -/
def Flower.update (fl : Flower) (potential : ℚ) : Flower × Bool :=
  let fl1 : Flower := { fl with potential := fl.potential + potential }
  let fl2 : Flower :=
    if fl1.isFruit = false ∧ 1 < fl1.potential then { fl1 with isFruit := true } else fl1
  (fl2, decide (2 < fl2.potential))

/-- Iterates Flower.update over a list of potential increments, one
simulation step per list entry, keeping the state. -/
def Flower.run (fl : Flower) : List ℚ → Flower
  | [] => fl
  | p :: ps => ((fl.update p).1).run ps

/-- A live bud as the orchestrator holds it.  Python identifies buds by
object identity (list.remove compares identity for plain objects); the
embedding makes identity explicit with the bid field. -/
structure TreeBud where
  bid : ℕ
  bud : Bud
deriving DecidableEq, Repr

/-- Spends a missed flowering attempt: bud.flowerPotential -= 1 of line 775. -/
def decFlowerPotential (tb : TreeBud) : TreeBud :=
  { tb with bud := { tb.bud with flowerPotential := tb.bud.flowerPotential - 1 } }

/-- Embeds the flower-outcome handler of Tree.grow (lines 757-775).  A fresh
uniform draw from the half-open interval from 0 inclusive to 1 exclusive is
the explicit argument draw.  If the draw passes the gate (draw at most
flowerGrowth), a new Flower is materialised, the bud is retired via done()
and removed from the live list (list.remove drops the first identity match);
otherwise the bud stays and its flower potential drops by 1. -/
def handleFlowerOutcome (buds : List TreeBud) (flowers : List Flower) (tb : TreeBud)
    (draw flowerGrowth : ℚ) : List TreeBud × List Flower :=
  if draw ≤ flowerGrowth then
    (buds.eraseP (fun y => y.bid == tb.bid), flowers ++ [Flower.init])
  else
    (buds.map (fun y => if y.bid == tb.bid then decFlowerPotential y else y), flowers)

/-- The per-bud outcome of one pass of the bud loop of Tree.grow, as far as
the live-bud collection is concerned: a shoot outcome creates numAxil fresh
axillary buds, a flower outcome removes the bud when the gate passes, and
anything else leaves the collection alone.  The bud-local state changes are
abstracted away; only collection membership matters here. -/
inductive BudOutcome where
  | shootO : ℕ → BudOutcome
  | flowerO : Bool → BudOutcome
  | noneO : BudOutcome
deriving DecidableEq, Repr

/-- The collection state threaded through the bud loop of Tree.grow: the
live list self.buds (mutated in place by removal), the addedBuds buffer, the
next fresh identity, and the log of buds whose update method was called. -/
structure LoopState where
  live : List ℕ
  added : List ℕ
  nextId : ℕ
  calls : List ℕ
deriving DecidableEq, Repr

/-- Embeds the loop for bud in list(self.buds) of Tree.grow (lines 701-776)
projected onto the live-bud collection.  Every snapshot entry gets exactly
one update call (logged in calls); a shoot outcome appends the freshly
created axillary buds to the addedBuds buffer; a gate-passing flower outcome
removes the bud from the live list; nothing else touches the collection. -/
def budLoop (o : ℕ → BudOutcome) : List ℕ → LoopState → LoopState
  | [], st => st
  | b :: rest, st =>
    match o b with
    | BudOutcome.shootO n =>
        budLoop o rest
          { st with calls := st.calls ++ [b],
                    added := st.added ++ (List.range n).map (fun j => st.nextId + j),
                    nextId := st.nextId + n }
    | BudOutcome.flowerO true =>
        budLoop o rest { st with calls := st.calls ++ [b], live := st.live.erase b }
    | BudOutcome.flowerO false =>
        budLoop o rest { st with calls := st.calls ++ [b] }
    | BudOutcome.noneO =>
        budLoop o rest { st with calls := st.calls ++ [b] }

/-- Embeds one full bud pass of a Tree.grow step: the loop iterates over a
snapshot of self.buds taken before any mutation, and the buffered new buds
are merged into the live list only after the pass (line 777). -/
def budStep (o : ℕ → BudOutcome) (buds : List ℕ) (nextId : ℕ) : LoopState :=
  let st := budLoop o buds { live := buds, added := [], nextId := nextId, calls := [] }
  { st with live := st.live ++ st.added }

/-- C2.  GrowthFunction.evaluate returns a random variable whose mean is
yearCurve(y) times the day-curve difference, with dayCurve(365) added to the
difference exactly when endDay is less than startDay (the step wrapped the
year boundary); in particular evaluate at year y from day 360 to day 10 has
mean yearCurve(y) times (dayCurve(10) - dayCurve(360) + dayCurve(365)). -/
theorem growthFunction_evaluate_mean (g : GrowthFunction) (y s e : ℚ) :
    (g.evaluate y s e).mean =
      g.fcurveYear y *
        (if e < s then (g.fcurveDay e - g.fcurveDay s) + g.fcurveDay 365
         else g.fcurveDay e - g.fcurveDay s) ∧
    (g.evaluate y 360 10).mean =
      g.fcurveYear y * ((g.fcurveDay 10 - g.fcurveDay 360) + g.fcurveDay 365) := by
  constructor
  · unfold GrowthFunction.evaluate
    by_cases h : e < s
    · simp only [h, if_pos]
      ring
    · simp only [h, if_neg, if_false]
      ring
  · unfold GrowthFunction.evaluate
    norm_num
    ring

/-- The rational decision procedure distRatioLtOne agrees with the
real-arithmetic comparison the source performs, for every nonzero
denominator. -/
lemma distRatioLtOne_iff (dsq dom : ℚ) (hdom : dom ≠ 0) :
    distRatioLtOne dsq dom = true ↔ Real.sqrt (dsq : ℝ) / (dom : ℝ) < 1 := by
  unfold distRatioLtOne
  rcases lt_trichotomy dom 0 with hneg | hz | hpos
  · have hlt : Real.sqrt (dsq : ℝ) / (dom : ℝ) < 1 := by
      have hle : Real.sqrt (dsq : ℝ) / (dom : ℝ) ≤ 0 :=
        div_nonpos_of_nonneg_of_nonpos (Real.sqrt_nonneg _) (by exact_mod_cast hneg.le)
      linarith
    simp [hneg, hlt, not_lt.mpr hneg.le]
  · exact absurd hz hdom
  · have hdr : (0 : ℝ) < (dom : ℝ) := by exact_mod_cast hpos
    have key : Real.sqrt (dsq : ℝ) / (dom : ℝ) < 1 ↔ dsq < dom * dom := by
      rw [div_lt_one hdr, Real.sqrt_lt' hdr]
      rw [sq]
      exact_mod_cast Iff.rfl
    simp [hpos, not_lt.mpr hpos.le, key]

/-- C1.  During Bud.update, a bud is inhibited exactly when its age is 0, it
has an apical parent, and the Euclidean distance from the apical parent
position to its own position divided by the apical parent dominance is
strictly below 1.  A bud with no apical parent, or whose age is not 0, is
never inhibited; and the iff makes each side of the ratio boundary flip the
inhibition outcome. -/
theorem bud_inhibition_characterization (b : Bud) :
    (b.apicalBud = none → b.isInhibited = false) ∧
    (b.age ≠ 0 → b.isInhibited = false) ∧
    (∀ apos adom, b.apicalBud = some (apos, adom) → adom ≠ 0 →
      (b.isInhibited = true ↔
        b.age = 0 ∧
          Real.sqrt ((normSq (sub3 apos b.pos) : ℚ) : ℝ) / (adom : ℝ) < 1)) := by
  refine ⟨?_, ?_, ?_⟩
  · intro h
    unfold Bud.isInhibited
    rw [h]
  · intro h
    unfold Bud.isInhibited
    cases hb : b.apicalBud with
    | none => rfl
    | some p =>
      obtain ⟨apos, adom⟩ := p
      have : (b.age == 0) = false := by
        simpa using h
      simp [this]
  · intro apos adom hsome hdom
    unfold Bud.isInhibited
    rw [hsome]
    rw [Bool.and_eq_true, beq_iff_eq, distRatioLtOne_iff _ _ hdom]

/-- Concrete bud for the C1 witness: age 0, apical parent at the origin with
dominance 2, own position at unit distance. -/
def budInhEx : Bud :=
  { type := budType0, pos := (0, 0, 1), shootPotential := 0, flowerPotential := 0,
    age := 0, dominance := 1, apicalBud := some ((0, 0, 0), 2) }

/-- Witness for C1: the characterization applied to a concrete bud at
distance 1 under dominance 2 shows it inhibited. -/
theorem bud_inhibition_witness : budInhEx.isInhibited = true := by
  have h := (bud_inhibition_characterization budInhEx).2.2 (0, 0, 0) 2 rfl (by norm_num)
  refine h.mpr ⟨rfl, ?_⟩
  have hn : (normSq (sub3 (0, 0, 0) budInhEx.pos) : ℚ) = 1 := by
    norm_num [normSq, sub3, budInhEx]
  rw [hn]
  push_cast
  rw [Real.sqrt_one]
  norm_num

/-- Accumulating potentials does not change the inhibition state: the test
reads only age, position and the apical reference. -/
lemma isInhibited_accumulate (b : Bud) (s f : ℚ) :
    (b.accumulate s f).isInhibited = b.isInhibited := rfl

/-- An inhibited bud has age 0: the inhibition test of the source applies
only at age 0. -/
lemma isInhibited_age_eq_zero (b : Bud) (h : b.isInhibited = true) : b.age = 0 := by
  unfold Bud.isInhibited at h
  cases hb : b.apicalBud with
  | none => rw [hb] at h; exact absurd h (by simp)
  | some p =>
    obtain ⟨apos, adom⟩ := p
    rw [hb] at h
    have := (Bool.and_eq_true _ _).mp h
    exact beq_iff_eq.mp this.1

/-- Shoot branch of Bud.update: accumulated shoot potential above 1 and not
inhibited yields the shoot outcome with the state merely accumulated. -/
lemma bud_update_shoot_eq (b : Bud) (s f : ℚ) (k : ℕ)
    (h1 : 1 < b.shootPotential + s) (h2 : b.isInhibited = false) :
    b.update s f k =
      (b.accumulate s f, some (GrowthRule.shoot (BudType.shootGrowth b.type k))) := by
  have hsp : (b.accumulate s f).shootPotential = b.shootPotential + s := rfl
  unfold Bud.update
  rw [if_pos (by rw [hsp]; exact h1)]
  rw [isInhibited_accumulate, h2]
  rfl

/-- Inhibited branch of Bud.update: accumulated shoot potential above 1
under inhibition spends the attempt and yields no outcome (inhibition forces
age 0, so the trailing flower test cannot fire either). -/
lemma bud_update_inhibited_eq (b : Bud) (s f : ℚ) (k : ℕ)
    (h1 : 1 < b.shootPotential + s) (h2 : b.isInhibited = true) :
    b.update s f k =
      ({ b.accumulate s f with shootPotential := b.shootPotential + s - 1 }, none) := by
  have hsp : (b.accumulate s f).shootPotential = b.shootPotential + s := rfl
  have hage : (b.accumulate s f).age = b.age := rfl
  unfold Bud.update
  rw [if_pos (by rw [hsp]; exact h1)]
  rw [isInhibited_accumulate, h2]
  have hage0 : b.age = 0 := isInhibited_age_eq_zero b h2
  simp only [if_true]
  rw [if_neg]
  · rfl
  · intro hc
    have : (0 : ℤ) < 0 := by
      have := hc.2
      rw [hage] at this
      rw [hage0] at this
      exact this
    exact absurd this (lt_irrefl 0)

/-- Inversion for a flower outcome of Bud.update: it forces the shoot
condition to fail and the flower condition to hold. -/
lemma bud_update_flower_inv (b : Bud) (s f : ℚ) (k : ℕ) (r : FlowerGrowthRule)
    (h : (b.update s f k).2 = some (GrowthRule.flower r)) :
    ¬ (1 < b.shootPotential + s ∧ b.isInhibited = false) ∧
      1 < b.flowerPotential + f ∧ 0 < b.age := by
  have hsp : (b.accumulate s f).shootPotential = b.shootPotential + s := rfl
  have hfp : (b.accumulate s f).flowerPotential = b.flowerPotential + f := rfl
  have hage : (b.accumulate s f).age = b.age := rfl
  unfold Bud.update at h
  by_cases h1 : 1 < (b.accumulate s f).shootPotential
  · rw [if_pos h1] at h
    by_cases h2 : (b.accumulate s f).isInhibited = true
    · rw [h2] at h
      simp only [if_true] at h
      have hage0 : b.age = 0 := isInhibited_age_eq_zero b h2
      rw [if_neg] at h
      · exact absurd h (by simp)
      · intro hc
        have := hc.2
        rw [hage, hage0] at this
        exact absurd this (lt_irrefl 0)
    · rw [Bool.not_eq_true] at h2
      rw [h2] at h
      simp only [Bool.false_eq_true, if_false] at h
      exact absurd h (by simp)
  · rw [if_neg h1] at h
    by_cases h3 : 1 < (b.accumulate s f).flowerPotential ∧ 0 < (b.accumulate s f).age
    · rw [if_pos h3] at h
      refine ⟨?_, ?_, ?_⟩
      · intro hc
        rw [hsp] at h1
        exact h1 hc.1
      · rw [hfp] at h3
        exact h3.1
      · rw [hage] at h3
        exact h3.2
    · rw [if_neg h3] at h
      exact absurd h (by simp)

/-- C3.  In Bud.update the shoot branch comes first: with the accumulated
shoot potential above 1 and no inhibition, update returns the accumulated
state together with a shoot outcome drawn from the rule table; with the
accumulated shoot potential above 1 but inhibited, update spends the attempt
(shoot potential drops by 1) and returns no outcome; and a flower outcome
can only ever be returned when the shoot condition does not hold and the
flower condition (accumulated flower potential above 1 and positive age)
does. -/
theorem bud_update_order (b : Bud) (s f : ℚ) (k : ℕ) :
    (1 < b.shootPotential + s → b.isInhibited = false →
      b.update s f k =
        (b.accumulate s f, some (GrowthRule.shoot (BudType.shootGrowth b.type k)))) ∧
    (1 < b.shootPotential + s → b.isInhibited = true →
      b.update s f k =
        ({ b.accumulate s f with shootPotential := b.shootPotential + s - 1 }, none)) ∧
    (∀ r, (b.update s f k).2 = some (GrowthRule.flower r) →
      ¬ (1 < b.shootPotential + s ∧ b.isInhibited = false) ∧
        1 < b.flowerPotential + f ∧ 0 < b.age) :=
  ⟨fun h1 h2 => bud_update_shoot_eq b s f k h1 h2,
   fun h1 h2 => bud_update_inhibited_eq b s f k h1 h2,
   fun r h => bud_update_flower_inv b s f k r h⟩

/-- Concrete bud for the C3 witness: no apical parent, shoot potential about
to pass the threshold. -/
def budShootEx : Bud :=
  { type := budType0, pos := (0, 0, 0), shootPotential := 1, flowerPotential := 0,
    age := 3, dominance := 1, apicalBud := none }

/-- Witness for C3: the uninhibited shoot branch fires on a concrete bud. -/
theorem bud_update_order_witness :
    budShootEx.update 1 0 0 =
      (budShootEx.accumulate 1 0,
        some (GrowthRule.shoot (BudType.shootGrowth budShootEx.type 0))) :=
  (bud_update_order budShootEx 1 0 0).1 (by norm_num [budShootEx]) rfl

/-- C5.  A bud of age 0 never returns a flower outcome from Bud.update, no
matter how large its flower potential grows. -/
theorem bud_age_zero_no_flower (b : Bud) (s f : ℚ) (k : ℕ) (h : b.age = 0) :
    ∀ r, (b.update s f k).2 ≠ some (GrowthRule.flower r) := by
  intro r hc
  have := (bud_update_flower_inv b s f k r hc).2.2
  rw [h] at this
  exact absurd this (lt_irrefl 0)

/-- Concrete bud for the C5 witness: age 0 and a large flower potential. -/
def budAge0Ex : Bud :=
  { type := budType0, pos := (0, 0, 0), shootPotential := 0, flowerPotential := 5,
    age := 0, dominance := 1, apicalBud := none }

/-- Witness for C5: a concrete age-0 bud with flower potential far past the
threshold still returns no flower outcome. -/
theorem bud_age_zero_no_flower_witness :
    (budAge0Ex.update 5 5 0).2 ≠ some (GrowthRule.flower flowerRule) :=
  bud_age_zero_no_flower budAge0Ex 5 5 0 rfl flowerRule

/-- Flower.update leaves the potential at the old value plus the step. -/
lemma flower_update_potential (fl : Flower) (p : ℚ) :
    ((fl.update p).1).potential = fl.potential + p := by
  unfold Flower.update
  dsimp only
  split <;> rfl

/-- Flower.update turns isFruit into the old flag joined with the threshold
test on the accumulated potential. -/
lemma flower_update_isFruit (fl : Flower) (p : ℚ) :
    ((fl.update p).1).isFruit = (fl.isFruit || decide (1 < fl.potential + p)) := by
  unfold Flower.update
  dsimp only
  cases hb : fl.isFruit with
  | true =>
    rw [if_neg]
    · rfl
    · intro hc
      exact absurd hc.1 (by simp)
  | false =>
    by_cases hp : 1 < fl.potential + p
    · rw [if_pos ⟨rfl, hp⟩]
      simp [hp]
    · rw [if_neg]
      · simp [hp]
      · intro hc
        exact hp hc.2

/-- The bool returned by Flower.update reports whether the accumulated
potential passed 2, whatever the fruit transition did. -/
lemma flower_update_snd (fl : Flower) (p : ℚ) :
    (fl.update p).2 = decide (2 < fl.potential + p) := by
  unfold Flower.update
  dsimp only
  split <;> rfl

/-- Invariant run lemma for Flower: from any state whose isFruit flag agrees
with the threshold test, a run of nonnegative increments lands on the state
whose potential is the old one plus the total and whose flag again agrees
with the threshold test. -/
lemma flower_run_spec (ps : List ℚ) (fl : Flower) (h : ∀ p ∈ ps, 0 ≤ p)
    (hinv : fl.isFruit = decide (1 < fl.potential)) :
    (fl.run ps).potential = fl.potential + ps.sum ∧
    (fl.run ps).isFruit = decide (1 < fl.potential + ps.sum) := by
  induction ps generalizing fl with
  | nil =>
    constructor
    · show fl.potential = fl.potential + ([] : List ℚ).sum
      simp
    · show fl.isFruit = decide (1 < fl.potential + ([] : List ℚ).sum)
      simpa using hinv
  | cons p ps ih =>
    have hp : 0 ≤ p := h p (List.mem_cons_self p ps)
    have hrest : ∀ q ∈ ps, 0 ≤ q := fun q hq => h q (List.mem_cons_of_mem p hq)
    have hpot : ((fl.update p).1).potential = fl.potential + p := flower_update_potential fl p
    have hinv2 : ((fl.update p).1).isFruit = decide (1 < ((fl.update p).1).potential) := by
      rw [flower_update_isFruit, hpot, hinv]
      by_cases h1 : 1 < fl.potential
      · have h2 : 1 < fl.potential + p := by linarith
        simp [h1, h2]
      · simp [h1]
    have := ih (fl.update p).1 hrest hinv2
    constructor
    · show ((fl.run (p :: ps))).potential = fl.potential + (p :: ps).sum
      have hr : fl.run (p :: ps) = ((fl.update p).1).run ps := rfl
      rw [hr, this.1, hpot, List.sum_cons]
      ring
    · have hr : fl.run (p :: ps) = ((fl.update p).1).run ps := rfl
      rw [hr, this.2, hpot, List.sum_cons]
      congr 1
      ring_nf

/-- The sum of a prefix of one more element is the old prefix sum plus the
element (out-of-range elements read as 0). -/
lemma sum_take_succ_getD (ps : List ℚ) (n : ℕ) :
    (ps.take (n + 1)).sum = (ps.take n).sum + ps.getD n 0 := by
  induction ps generalizing n with
  | nil => simp [List.getD]
  | cons a t ih =>
    cases n with
    | zero => simp [List.getD]
    | succ m =>
      have : (a :: t).getD (m + 1) 0 = t.getD m 0 := rfl
      rw [List.take_succ_cons, List.take_succ_cons, List.sum_cons, List.sum_cons, ih, this]
      ring

/-- Prefix sums of a list of nonnegative rationals are monotone in the
prefix length. -/
lemma sum_take_mono (ps : List ℚ) (h : ∀ p ∈ ps, 0 ≤ p) {n m : ℕ} (hnm : n ≤ m) :
    (ps.take n).sum ≤ (ps.take m).sum := by
  induction m with
  | zero =>
    have : n = 0 := Nat.le_zero.mp hnm
    rw [this]
  | succ m ih =>
    rcases Nat.lt_or_ge n (m + 1) with hlt | hge
    · have hle : n ≤ m := Nat.lt_succ_iff.mp hlt
      have step : (ps.take m).sum ≤ (ps.take (m + 1)).sum := by
        rw [sum_take_succ_getD]
        have : 0 ≤ ps.getD m 0 := by
          by_cases hm : m < ps.length
          · rw [List.getD_eq_getElem ps 0 hm]
            exact h _ (List.getElem_mem hm)
          · rw [List.getD_eq_default ps 0 (Nat.le_of_not_lt hm)]
        linarith
      exact le_trans (ih hle) step
    · have : n = m + 1 := Nat.le_antisymm hnm hge
      rw [this]

/-- C6.  Run a fresh Flower through any sequence of nonnegative potential
increments: after n steps the potential is the prefix sum; isFruit holds
exactly when that prefix sum passed 1 (so it flips exactly at the first
crossing, is unaffected by later crossings, and never reverts); and the
fall flag returned by the next update holds exactly when the accumulated
potential passed 2. -/
theorem flower_lifecycle (ps : List ℚ) (h : ∀ p ∈ ps, 0 ≤ p) (n : ℕ) :
    (Flower.init.run (ps.take n)).potential = (ps.take n).sum ∧
    ((Flower.init.run (ps.take n)).isFruit = true ↔ 1 < (ps.take n).sum) ∧
    (∀ m, n ≤ m → (Flower.init.run (ps.take n)).isFruit = true →
      (Flower.init.run (ps.take m)).isFruit = true) ∧
    (((Flower.init.run (ps.take n)).update (ps.getD n 0)).2 = true ↔
      2 < (ps.take (n + 1)).sum) := by
  have htake : ∀ j : ℕ, ∀ p ∈ ps.take j, 0 ≤ p := fun j p hp => h p (List.take_subset j ps hp)
  have hspec : ∀ j : ℕ,
      (Flower.init.run (ps.take j)).potential = (ps.take j).sum ∧
      (Flower.init.run (ps.take j)).isFruit = decide (1 < (ps.take j).sum) := by
    intro j
    have := flower_run_spec (ps.take j) Flower.init (htake j) (by rfl)
    have h0 : Flower.init.potential = 0 := rfl
    constructor
    · rw [this.1, h0, zero_add]
    · rw [this.2, h0, zero_add]
  refine ⟨(hspec n).1, ?_, ?_, ?_⟩
  · rw [(hspec n).2]
    simp
  · intro m hm hfr
    rw [(hspec n).2] at hfr
    rw [(hspec m).2]
    have h1 : 1 < (ps.take n).sum := by simpa using hfr
    have h2 : (ps.take n).sum ≤ (ps.take m).sum := sum_take_mono ps h hm
    simp
    linarith
  · rw [flower_update_snd, (hspec n).1, ← sum_take_succ_getD]
    constructor
    · intro hx
      have : 2 < (ps.take (n + 1)).sum := by simpa using hx
      linarith
    · intro hx
      simp only [decide_eq_true_eq]
      linarith

/-- Concrete increment list for the C6 witness. -/
def psEx : List ℚ := [3/2, 1, 0]

/-- Witness for C6: on the concrete run the potential, fruit flag and fall
flag all take the characterized values, and the monotonicity clause applies
at a concrete later step. -/
theorem flower_lifecycle_witness :
    (Flower.init.run (psEx.take 1)).potential = (psEx.take 1).sum ∧
    ((Flower.init.run (psEx.take 1)).isFruit = true ↔ 1 < (psEx.take 1).sum) ∧
    (Flower.init.run (psEx.take 2)).isFruit = true ∧
    (((Flower.init.run (psEx.take 1)).update (psEx.getD 1 0)).2 = true ↔
      2 < (psEx.take 2).sum) := by
  have h : ∀ p ∈ psEx, 0 ≤ p := by
    intro p hp
    simp only [psEx, List.mem_cons, List.not_mem_nil, or_false] at hp
    rcases hp with h1 | h1 | h1 <;> rw [h1] <;> norm_num
  have t1 := flower_lifecycle psEx h 1
  refine ⟨t1.1, t1.2.1, ?_, t1.2.2.2⟩
  exact t1.2.2.1 2 (by norm_num) (t1.2.1.mpr (by norm_num [psEx]))

/-- C7 counterexample.  The claim says a negative sampled length is clamped
to zero; the Stem constructor of the source stores the raw product, so a
concrete negative sample is stored negative, not zero. -/
theorem stem_length_clamp_counterexample :
    (Stem.create 1 (-(1/2)) 1).length = -(1/2) ∧ (Stem.create 1 (-(1/2)) 1).length < 0 := by
  constructor
  · norm_num [Stem.create]
  · norm_num [Stem.create]

/-- C7 amended.  A newly created Stem stores exactly the parent length times
the sampled ratio; no clamping happens anywhere, so a negative sampled
length is propagated as is (and the length is nonnegative precisely when
the sampled product is). -/
theorem stem_length_no_clamp (parentLength ratioSample parentThick : ℚ) :
    (Stem.create parentLength ratioSample parentThick).length =
      parentLength * ratioSample := rfl

/-- C8.  Stem.update adds the growth amount times the factor 0.05 times the
stem thickness to the accumulator; when the accumulator then passes the
fixed threshold 0.2 a single thickening event carrying the accumulated gain
is emitted and the accumulator resets to zero, otherwise no event is
emitted; thickness never changes during update and is fixed at creation as
0.9 of the parent thickness. -/
theorem stem_secondary_growth (s : Stem) (g : ℚ) (parentLength ratioSample parentThick : ℚ) :
    (2/10 < s.secondaryGrowthGain + g * (5/100) * s.thick →
      (s.update g).1.secondaryGrowthGain = 0 ∧
      (s.update g).2 = some (s.secondaryGrowthGain + g * (5/100) * s.thick)) ∧
    (¬ 2/10 < s.secondaryGrowthGain + g * (5/100) * s.thick →
      (s.update g).1.secondaryGrowthGain = s.secondaryGrowthGain + g * (5/100) * s.thick ∧
      (s.update g).2 = none) ∧
    (s.update g).1.thick = s.thick ∧
    (s.update g).1.length = s.length ∧
    (Stem.create parentLength ratioSample parentThick).thick = parentThick * (9/10) := by
  refine ⟨?_, ?_, ?_, ?_, rfl⟩
  · intro h
    unfold Stem.update
    rw [if_pos h]
    exact ⟨rfl, rfl⟩
  · intro h
    unfold Stem.update
    rw [if_neg h]
    exact ⟨rfl, rfl⟩
  · unfold Stem.update
    dsimp only
    split <;> rfl
  · unfold Stem.update
    dsimp only
    split <;> rfl

/-- Concrete stem for the C8 witness: fresh stem of thickness 0.9 receiving
a large growth amount that pushes the accumulator past 0.2 at once. -/
def stemEx : Stem := Stem.create 1 (8/10) 1

/-- Witness for C8: the concrete over-threshold update emits the event and
resets the accumulator. -/
theorem stem_secondary_growth_witness :
    (stemEx.update 10).1.secondaryGrowthGain = 0 ∧
    (stemEx.update 10).2 = some (stemEx.secondaryGrowthGain + 10 * (5/100) * stemEx.thick) :=
  (stem_secondary_growth stemEx 10 1 (8/10) 1).1 (by norm_num [stemEx, Stem.create])

/-- After list.remove by identity, no bud with the removed identity remains,
as long as identities were distinct. -/
lemma eraseP_bid_ne (i : ℕ) :
    ∀ buds : List TreeBud, (buds.map TreeBud.bid).Nodup →
      ∀ x ∈ buds.eraseP (fun y => y.bid == i), x.bid ≠ i := by
  intro buds
  induction buds with
  | nil =>
    intro _ x hx
    simp [List.eraseP] at hx
  | cons a t ih =>
    intro hnd x hx
    rw [List.map_cons, List.nodup_cons] at hnd
    rw [List.eraseP_cons] at hx
    cases hpa : (a.bid == i) with
    | true =>
      rw [hpa, cond_true] at hx
      intro hc
      have hai : a.bid = i := beq_iff_eq.mp hpa
      have : x.bid ∈ t.map TreeBud.bid := List.mem_map_of_mem TreeBud.bid hx
      rw [hc, ← hai] at this
      exact hnd.1 this
    | false =>
      rw [hpa, cond_false] at hx
      rcases List.mem_cons.mp hx with hxa | hxt
      · rw [hxa]
        intro hc
        rw [hc] at hpa
        simp at hpa
      · exact ih hnd.2 x hxt

/-- C4 amended.  For a flower outcome of a bud during a step, when the
uniform draw passes the gate (draw at most the flower-growth probability) a
Flower is materialised and the bud leaves the live set; when the gate fails
the flower list is untouched and the bud stays with its flower potential
decremented by 1.  Since the numpy draw ranges over the half-open unit
interval including 0, with flower-growth probability 0 a Flower is still
created precisely when the draw is exactly 0; for every positive draw no
Flower is created. -/
theorem flower_gate_spec (buds : List TreeBud) (flowers : List Flower) (tb : TreeBud)
    (draw fg : ℚ) (hmem : tb ∈ buds) (hnodup : (buds.map TreeBud.bid).Nodup) :
    (draw ≤ fg →
      (handleFlowerOutcome buds flowers tb draw fg).2 = flowers ++ [Flower.init] ∧
      ∀ x ∈ (handleFlowerOutcome buds flowers tb draw fg).1, x.bid ≠ tb.bid) ∧
    (fg < draw →
      (handleFlowerOutcome buds flowers tb draw fg).2 = flowers ∧
      ∃ x ∈ (handleFlowerOutcome buds flowers tb draw fg).1,
        x.bid = tb.bid ∧ x.bud.flowerPotential = tb.bud.flowerPotential - 1) ∧
    (fg = 0 → 0 ≤ draw →
      ((handleFlowerOutcome buds flowers tb draw fg).2.length = flowers.length + 1 ↔
        draw = 0)) := by
  refine ⟨?_, ?_, ?_⟩
  · intro hd
    unfold handleFlowerOutcome
    rw [if_pos hd]
    exact ⟨rfl, eraseP_bid_ne tb.bid buds hnodup⟩
  · intro hd
    unfold handleFlowerOutcome
    rw [if_neg (not_le.mpr hd)]
    refine ⟨rfl, ?_⟩
    refine ⟨decFlowerPotential tb, ?_, rfl, rfl⟩
    have hmap := List.mem_map_of_mem
      (fun y => if y.bid == tb.bid then decFlowerPotential y else y) hmem
    simpa using hmap
  · intro hfg hdraw
    unfold handleFlowerOutcome
    by_cases hd : draw ≤ fg
    · rw [if_pos hd]
      have hdz : draw = 0 := le_antisymm (hfg ▸ hd) hdraw
      simp [hdz]
    · rw [if_neg hd]
      constructor
      · intro hlen
        exact absurd hlen (by simp)
      · intro hdz
        rw [hfg, hdz] at hd
        exact absurd le_rfl hd

/-- Concrete retirable bud for the C4 theorems: age past 0, flower potential
far past the threshold. -/
def tbEx : TreeBud :=
  { bid := 0,
    bud := { type := budType0, pos := (0, 0, 0), shootPotential := 0,
             flowerPotential := 5, age := 1, dominance := 1, apicalBud := none } }

/-- C4 counterexample.  The claim says that with flower-growth probability 0
no Flower is ever created; yet the draw 0, a possible value of the numpy
half-open uniform draw, passes the gate draw at most 0, and the handler
creates a Flower. -/
theorem flower_gate_counterexample :
    ((0 : ℚ) ≤ 0 ∧ (0 : ℚ) < 1) ∧
      (handleFlowerOutcome [tbEx] [] tbEx 0 0).2.length = 1 := by
  refine ⟨⟨le_rfl, by norm_num⟩, ?_⟩
  unfold handleFlowerOutcome
  rw [if_pos le_rfl]
  rfl

/-- Witness for C4: on a concrete failing draw the flower list is unchanged
and the bud stays with its flower potential decremented. -/
theorem flower_gate_witness :
    (handleFlowerOutcome [tbEx] [] tbEx (1/2) (1/4)).2 = [] ∧
    ∃ x ∈ (handleFlowerOutcome [tbEx] [] tbEx (1/2) (1/4)).1,
      x.bid = tbEx.bid ∧ x.bud.flowerPotential = tbEx.bud.flowerPotential - 1 :=
  (flower_gate_spec [tbEx] [] tbEx (1/2) (1/4)
    (List.mem_singleton_self tbEx) (by simp)).2.1 (by norm_num)

/-- The bud loop calls update once per snapshot entry, in order, appending
to the call log. -/
lemma budLoop_calls (o : ℕ → BudOutcome) :
    ∀ (l : List ℕ) (st : LoopState), (budLoop o l st).calls = st.calls ++ l := by
  intro l
  induction l with
  | nil => intro st; simp [budLoop]
  | cons b rest ih =>
    intro st
    show (budLoop o (b :: rest) st).calls = st.calls ++ (b :: rest)
    unfold budLoop
    cases ho : o b with
    | shootO n =>
      rw [ih]
      simp
    | flowerO pass =>
      cases pass <;> (rw [ih]; simp)
    | noneO =>
      rw [ih]
      simp

/-- Every identity in the addedBuds buffer after the loop either was
buffered before the loop or is at least the fresh-identity mark the loop
started from. -/
lemma budLoop_added (o : ℕ → BudOutcome) :
    ∀ (l : List ℕ) (st : LoopState),
      ∀ x ∈ (budLoop o l st).added, x ∈ st.added ∨ st.nextId ≤ x := by
  intro l
  induction l with
  | nil =>
    intro st x hx
    exact Or.inl hx
  | cons b rest ih =>
    intro st x hx
    unfold budLoop at hx
    cases ho : o b with
    | shootO n =>
      rw [ho] at hx
      rcases ih _ x hx with hin | hge
      · rcases List.mem_append.mp hin with hold | hnew
        · exact Or.inl hold
        · right
          rcases List.mem_map.mp hnew with ⟨j, _, hj⟩
          rw [← hj]
          exact Nat.le_add_right _ _
      · right
        exact le_trans (Nat.le_add_right _ _) hge
    | flowerO pass =>
      cases pass <;> simp only [ho] at hx
      all_goals
        have h2 := ih _ x hx
        exact h2
    | noneO =>
      simp only [ho] at hx
      have h2 := ih _ x hx
      exact h2

/-- C9.  One bud pass of a Tree.grow step iterates over the snapshot taken
before any mutation: the buds whose update runs this step are exactly the
pre-step live buds, in order, and every axillary bud created during the pass
(all fresh identities) is absent from that call list, so no bud is updated
in the step that created it. -/
theorem step_snapshot (o : ℕ → BudOutcome) (buds : List ℕ) (nextId : ℕ)
    (h : ∀ b ∈ buds, b < nextId) :
    (budStep o buds nextId).calls = buds ∧
    ∀ nb ∈ (budStep o buds nextId).added, nb ∉ (budStep o buds nextId).calls := by
  have hcalls : (budStep o buds nextId).calls = buds := by
    unfold budStep
    rw [budLoop_calls]
    simp
  refine ⟨hcalls, ?_⟩
  intro nb hnb hmem
  rw [hcalls] at hmem
  have hadd : nb ∈ (budLoop o buds
      { live := buds, added := [], nextId := nextId, calls := [] }).added := hnb
  rcases budLoop_added o buds _ nb hadd with hin | hge
  · exact absurd hin (List.not_mem_nil nb)
  · exact absurd (h nb hmem) (not_lt.mpr hge)

/-- Concrete outcome oracle for the C9 witness: every bud shoots and creates
one axillary bud. -/
def oracleEx : ℕ → BudOutcome := fun _ => BudOutcome.shootO 1

/-- Witness for C9: on a concrete two-bud step the update calls are exactly
the snapshot. -/
theorem step_snapshot_witness : (budStep oracleEx [0, 1] 2).calls = [0, 1] :=
  (step_snapshot oracleEx [0, 1] 2 (by decide)).1

/-- C10.  BudType.flowerGrowth returns the module-level global flowerRule
whatever flower rule the instance was constructed with; a bud type built
with a different flower rule still reports the global, never its own
field. -/
theorem budType_flowerGrowth_global (sr : List ShootGrowthRule) (sw : List ℚ)
    (fr : FlowerGrowthRule) :
    (BudType.mk sr sw fr).flowerGrowth = flowerRule ∧
    (fr ≠ flowerRule → (BudType.mk sr sw fr).flowerGrowth ≠ fr) := by
  constructor
  · rfl
  · intro hne hc
    exact hne (hc ▸ rfl)

/-- A flower rule distinct from the module-level global, for the C10
witness. -/
def frEx : FlowerGrowthRule := { flowerT := { sizeR := { mean := 0, error := 0 } } }

/-- Witness for C10: a bud type constructed with the distinct rule frEx
still reports the global flowerRule, not frEx. -/
theorem budType_flowerGrowth_witness :
    (BudType.mk [] [] frEx).flowerGrowth = flowerRule ∧
    (BudType.mk [] [] frEx).flowerGrowth ≠ frEx :=
  ⟨(budType_flowerGrowth_global [] [] frEx).1,
   (budType_flowerGrowth_global [] [] frEx).2 (by
     intro h
     have hm : (0 : ℚ) = 3/10 := congrArg (fun x => x.flowerT.sizeR.mean) h
     norm_num at hm)⟩
